import Mathlib

/-!
Verification development for the BOQ python-scraper service
(`python-scraper/scraper.py`, `python-scraper/main.py`).

The Python code is shallowly embedded: pure helpers become Lean functions on
`String`/`List`, the page/CSS layer (an external capability) is represented by
the values the code reads off a page, JSON values get a small AST, and the
background-task machinery becomes explicit state passing over a task record.
All string primitives are written by structural recursion on `String.data`
so that every definition evaluates inside the kernel.

Python semantics conventions used throughout:
  * `None` is `Option.none`; a CSS `.get()` result is an `Option String`.
  * Python truthiness of a string is `s ≠ ""`; of an optional string it is
    `some s` with `s ≠ ""`.
  * `str.lower`, `str.strip`, `str.title`, `str.split`, `str.strip(chars)`
    are modelled on ASCII data (every block-list token and URL keyword in the
    source is ASCII).
-/

/-- Python `s.lower()` (ASCII case mapping, as applied to URLs and titles). -/
def lowerStr (s : String) : String :=
  ⟨s.data.map Char.toLower⟩

/-- Whitespace recognised by Python `str.strip()` (the forms occurring in
page text): space, tab, newline, carriage return. -/
def isPyWs (c : Char) : Bool :=
  c = ' ' || c = '\t' || c = '\n' || c = '\r'

/-- Python `s.strip()`: drop leading and trailing whitespace. -/
def pyStrip (s : String) : String :=
  ⟨((s.data.dropWhile isPyWs).reverse.dropWhile isPyWs).reverse⟩

/-- Drop leading and trailing occurrences of one character; Python
`s.strip(ch)` for a single-character argument (used as `path.strip('/')`). -/
def stripChar (ch : Char) (s : String) : String :=
  ⟨((s.data.dropWhile (· = ch)).reverse.dropWhile (· = ch)).reverse⟩

/-- Helper for `splitChar`: accumulates the current field (reversed). -/
def splitCharAux (sep : Char) : List Char → List Char → List (List Char)
  | [], acc => [acc.reverse]
  | c :: cs, acc =>
    if c = sep then acc.reverse :: splitCharAux sep cs []
    else splitCharAux sep cs (c :: acc)

/-- Python `s.split(sep)` for a one-character separator, keeping empty
fields, exactly as `'a//b'.split('/') == ['a', '', 'b']`. -/
def splitChar (sep : Char) (s : String) : List String :=
  (splitCharAux sep s.data []).map (fun l => ⟨l⟩)

/-- Occurrence scan over character lists: does `t` occur contiguously inside
the scanned list?  (Helper for Python's substring test `t in s`.) -/
def infixScan (t : List Char) : List Char → Bool
  | [] => t.isEmpty
  | c :: rest => t.isPrefixOf (c :: rest) || infixScan t rest

/-- Python substring containment `t in s`. -/
def strIn (t s : String) : Bool :=
  infixScan t.data s.data

/-- The scan agrees with the mathematical contiguous-sublist relation. -/
theorem infixScan_iff (t : List Char) : ∀ s : List Char,
    infixScan t s = true ↔ t <:+: s := by
  intro s
  induction s with
  | nil =>
    simp [infixScan, List.isEmpty_iff]
  | cons c rest ih =>
    simp [infixScan, List.infix_cons_iff, ih]

/-! ### URL machinery (`urllib.parse` as used by the scraper) -/

/-- Scheme characters allowed after the leading letter of a URL scheme. -/
def isSchemeChar (c : Char) : Bool :=
  c.isAlpha || c.isDigit || c = '+' || c = '-' || c = '.'

/-- Helper: after a leading letter, scan scheme characters up to a colon. -/
def schemeTail : List Char → Bool
  | [] => false
  | c :: rest => if c = ':' then true else isSchemeChar c && schemeTail rest

/-- Does the string begin with a URL scheme (`letter (alnum|+|-|.)* ':'`),
the test `urllib.parse` applies when deciding whether a reference is
absolute? -/
def hasScheme (s : String) : Bool :=
  match s.data with
  | [] => false
  | c :: rest => c.isAlpha && schemeTail rest

/-- The scheme part of a URL: the characters before the first colon. -/
def schemeOf (s : String) : String :=
  ⟨s.data.takeWhile (fun c => c ≠ ':')⟩

/-- Everything after the first colon (helper for stripping a scheme). -/
def afterColon (s : String) : String :=
  ⟨(s.data.dropWhile (fun c => c ≠ ':')).drop 1⟩

/-- Does `s` start with the two characters `//`? -/
def startsSlashSlash (s : String) : Bool :=
  match s.data with
  | '/' :: '/' :: _ => true
  | _ => false

/-- Does `s` start with the character `c`? -/
def startsChar (c : Char) (s : String) : Bool :=
  match s.data with
  | d :: _ => d = c
  | [] => false

/-- Model of `urllib.parse.urljoin(base, rel)` restricted to the base shapes
the scraper produces (`base_url = f"{scheme}://{netloc}"`, i.e. an absolute
URL with empty path).  A reference carrying its own scheme is kept as is
(dot-segment normalisation and the same-scheme relative form are not
modelled; no claim depends on them). -/
def urljoin (base rel : String) : String :=
  if rel = "" then base
  else if hasScheme rel then rel
  else if startsSlashSlash rel then schemeOf base ++ ":" ++ rel
  else if startsChar '?' rel || startsChar '#' rel then base ++ rel
  else if startsChar '/' rel then base ++ rel
  else base ++ "/" ++ rel

/-- The path component of a URL, as `urllib.parse.urlparse(url).path`: strip
a scheme if present, strip a `//authority` if present, cut at the first `?`
or `#`. -/
def urlPath (url : String) : String :=
  let rest := if hasScheme url then afterColon url else url
  let rest :=
    if startsSlashSlash rest then
      ⟨(rest.data.drop 2).dropWhile (fun c => c ≠ '/')⟩
    else rest
  ⟨rest.data.takeWhile (fun c => c ≠ '?' && c ≠ '#')⟩

/-- Python `s.replace('-', ' ')` (character-for-character). -/
def dashToSpace (s : String) : String :=
  ⟨s.data.map (fun c => if c = '-' then ' ' else c)⟩

/-- Helper for `pyTitle`: the flag records whether the previous character was
alphabetic. -/
def pyTitleAux : Bool → List Char → List Char
  | _, [] => []
  | prevAlpha, c :: cs =>
    (if c.isAlpha then (if prevAlpha then c.toLower else c.toUpper) else c)
      :: pyTitleAux c.isAlpha cs

/-- Python `s.title()` (ASCII): uppercase each letter that follows a
non-letter, lowercase the other letters. -/
def pyTitle (s : String) : String :=
  ⟨pyTitleAux false s.data⟩

/-! ### Image validity filter (`scraper.py` lines 18-29) -/

/-- The fixed block-list `IMAGE_EXCLUDE` of UI-asset tokens. -/
def IMAGE_EXCLUDE : List String :=
  ["logo", "icon", "arrow", "chevron", "placeholder", "blank", "loading",
   "spinner", "social", "banner"]

/-- The predicate `is_valid_product_image` of `scraper.py`: reject empty or
short URLs, then reject any URL whose lowercase form contains a block-list
token. -/
def is_valid_product_image (url : String) : Bool :=
  if url = "" || url.length < 10 then false
  else !(IMAGE_EXCLUDE.any (fun term => strIn term (lowerStr url)))

/-! ### WooCommerce category-URL parsing (`scraper.py` lines 32-53) -/

/-- The path segments the parser works on: split the stripped path on `/`,
dropping empty segments and the literal segment `product-category`. -/
def wooParts (url : String) : List String :=
  (splitChar '/' (stripChar '/' (urlPath url))).filter
    (fun p => p ≠ "" && p ≠ "product-category")

/-- `parse_woocommerce_category_url` of `scraper.py`: with at least two
remaining segments, titlecase the first and the last and return them when
they differ; with exactly one segment return it (titlecased) twice;
otherwise return `(None, None)`. -/
def parse_woocommerce_category_url (url : String) :
    Option String × Option String :=
  match wooParts url with
  | [] => (none, none)
  | [p] =>
    let cat := pyTitle (dashToSpace p)
    (some cat, some cat)
  | p :: q :: rest =>
    let main_cat := pyTitle (dashToSpace p)
    let sub_cat := pyTitle (dashToSpace ((p :: q :: rest).getLast (by simp)))
    if main_cat ≠ sub_cat then (some main_cat, some sub_cat)
    else (none, none)

/-- The category-label resolution step of the crawl loop (`scraper.py`
lines 570-574): a successful URL parse (both components truthy) overrides
the menu-derived labels. -/
def resolveLabels (catUrl mainMenu subMenu : String) : String × String :=
  match parse_woocommerce_category_url catUrl with
  | (some m, some s) => if m ≠ "" && s ≠ "" then (m, s) else (mainMenu, subMenu)
  | _ => (mainMenu, subMenu)

/-! ### Product records (`scraper.py` lines 56-69) -/

/-- The product dict built by `create_product` (the UI field `model` carries
the product name). -/
structure Product where
  mainCategory : String
  subCategory : String
  family : String
  model : String
  description : String
  imageUrl : String
  productUrl : String
  price : Nat
  deriving DecidableEq

/-- `create_product` of `scraper.py`.  Python's `sub_category or
main_category` is rendered with the empty string standing for `None`. -/
def create_product (name image_url product_url brand_name : String)
    (main_category : String := "General") (sub_category : String := "") :
    Product :=
  { mainCategory := main_category
    subCategory := if sub_category = "" then main_category else sub_category
    family := brand_name
    model := name
    description := name
    imageUrl := image_url
    productUrl := product_url
    price := 0 }

/-! ### Page model for the product extractor

The CSS layer is an external capability; a page is represented by what the
extractor's queries return on it: the containers matched by the WooCommerce
selectors (strategy 1), the generic `div/li/article/section` containers
(strategy 2) and the parsed JSON-LD script blocks (strategy 3). -/

/-- What strategy 1 reads off one matched container: the six title-selector
results in order, the main link text, the image attributes, and the first
anchor href. -/
structure WooContainer where
  titleSels : List (Option String)
  linkText : Option String
  src : Option String
  dataSrc : Option String
  dataLazySrc : Option String
  srcset : Option String
  href : Option String
  deriving DecidableEq

/-- What strategy 2 reads off one generic container. -/
structure GenContainer where
  hasImg : Bool
  hasLink : Bool
  hasHeading : Bool
  headingText : Option String
  linkText : Option String
  imgSrc : Option String
  imgDataSrc : Option String
  href : Option String
  deriving DecidableEq

/-- A JSON value, for the JSON-LD structured-data blocks of strategy 3. -/
inductive JVal where
  | null : JVal
  | bool : Bool → JVal
  | num : Int → JVal
  | str : String → JVal
  | arr : List JVal → JVal
  | obj : List (String × JVal) → JVal

/-- Python `dict.get(k)` on a JSON object (`None` when the key is absent). -/
def jGet (fs : List (String × JVal)) (k : String) : Option JVal :=
  match fs.find? (fun f => f.1 = k) with
  | some f => some f.2
  | none => none

/-- Python truthiness of a JSON value. -/
def jTruthy : JVal → Bool
  | .null => false
  | .bool b => b
  | .num n => n ≠ 0
  | .str s => s ≠ ""
  | .arr xs => !xs.isEmpty
  | .obj fs => !fs.isEmpty

/-- Truthiness of an optional JSON value (`None` is falsy). -/
def optJTruthy : Option JVal → Bool
  | some v => jTruthy v
  | none => false

/-- Python `v == 'lit'` for a JSON value against a string literal. -/
def jEqStr : JVal → String → Bool
  | .str s, t => s = t
  | _, _ => false

/-- Decimal digits of a natural number (own structural rendering, so the
kernel can evaluate it). -/
def natDigits (n : Nat) : List Char :=
  if h : n < 10 then [Nat.digitChar n]
  else natDigits (n / 10) ++ [Nat.digitChar (n % 10)]
decreasing_by exact Nat.div_lt_self (Nat.lt_of_lt_of_le (by omega) (Nat.le_of_not_lt h)) (by omega)

/-- Python `str()` of a JSON value, modelled only as far as the claims
observe it: strings render as themselves; for the remaining shapes only the
fact that a truthy value renders non-empty matters, so containers render as
a fixed bracket form without recursing into their elements. -/
def pyStr : JVal → String
  | .str s => s
  | .null => "None"
  | .bool b => if b then "True" else "False"
  | .num n => if n < 0 then ⟨'-' :: natDigits (-n).toNat⟩ else ⟨natDigits n.toNat⟩
  | .arr _ => "[...]"
  | .obj _ => "\x7b...\x7d"

/-- The whole page, as the extractor sees it.  `wooContainers` concatenates,
in document order, the matches of the six WooCommerce selectors (the
selector loop of strategy 1 walks them in sequence against one shared `seen`
set); `ldScripts` holds each JSON-LD block after `json.loads`, with `none`
for a block that fails to parse. -/
structure PageModel where
  wooContainers : List WooContainer
  genContainers : List GenContainer
  ldScripts : List (Option JVal)

/-- Extraction state: the growing product list and the shared `seen` set of
lowercased titles and resolved URLs. -/
structure ExtSt where
  products : List Product
  seen : List String

/-- Truthiness of an optional string (Python `if x:`). -/
def optTruthy : Option String → Bool
  | some s => s ≠ ""
  | none => false

/-- Python `a or b` on optional strings: the first truthy value, else the
last operand. -/
def pyOr (a b : Option String) : Option String :=
  if optTruthy a then a else b

/-- The title loop of strategy 1 (`scraper.py` lines 99-104): each selector
result overwrites `title`; the loop breaks on the first truthy result whose
stripped form is longer than 2, returning it stripped; otherwise `title`
ends as the final selector's raw result. -/
def wooTitleLoop : List (Option String) → Option String
  | [] => none
  | [c] =>
    match c with
    | some s => if s ≠ "" && (pyStrip s).length > 2 then some (pyStrip s) else some s
    | none => none
  | c :: rest =>
    match c with
    | some s => if s ≠ "" && (pyStrip s).length > 2 then some (pyStrip s)
                else wooTitleLoop rest
    | none => wooTitleLoop rest

/-- The srcset override of strategy 1 (lines 123-126): take the first
comma-field of `srcset`, strip it, take its first space-token; keep the
previous candidate when that token is empty or `srcset` is falsy. -/
def srcsetPick (srcset : Option String) (prev : Option String) :
    Option String :=
  match srcset with
  | some ss =>
    if ss ≠ "" then
      let tok := (splitChar ' ' (pyStrip ((splitChar ',' ss).headD ""))).headD ""
      if tok ≠ "" then some tok else prev
    else prev
  | none => prev

/-- The title resolution of strategy 1 (lines 99-110): the selector loop,
then the main-link fallback when the loop's result is falsy. -/
def wooTitle (c : WooContainer) : Option String :=
  let t0 := wooTitleLoop c.titleSels
  if optTruthy t0 then t0
  else
    match c.linkText with
    | some lt =>
      if lt ≠ "" && (pyStrip lt).length > 2 then some (pyStrip lt) else t0
    | none => t0

/-- The image resolution of strategy 1 (lines 116-126): the
`src`/`data-src`/`data-lazy-src` chain, then the srcset override. -/
def wooImg (c : WooContainer) : Option String :=
  srcsetPick c.srcset (pyOr (pyOr c.src c.dataSrc) c.dataLazySrc)

/-- Strategy 1 candidate for one container (lines 96-143): `none` replays a
`continue`.  The guards run in source order: title found and unseen, image
present and valid, href present, resolved URL unseen. -/
def wooCandidate (base : String) (seen : List String) (c : WooContainer) :
    Option (String × String × String) :=
  match wooTitle c with
  | none => none
  | some ttl =>
    if ttl = "" || lowerStr ttl ∈ seen then none
    else if !(optTruthy (wooImg c)) then none
    else if !(is_valid_product_image ((wooImg c).getD "")) then none
    else
      match c.href with
      | none => none
      | some purl =>
        if purl = "" then none
        else if urljoin base purl ∈ seen then none
        else some (ttl, urljoin base ((wooImg c).getD ""), urljoin base purl)

/-- One strategy-1 step: a successful candidate is appended and its title
(lowercased) and resolved URL join the `seen` set. -/
def stepWoo (base brand mc sc : String) (st : ExtSt) (c : WooContainer) :
    ExtSt :=
  match wooCandidate base st.seen c with
  | none => st
  | some (ttl, fimg, furl) =>
    { products := st.products ++
        [create_product ttl fimg furl brand mc sc]
      seen := furl :: lowerStr ttl :: st.seen }

/-- The title resolution of strategy 2 (lines 179-189). -/
def genTitle (c : GenContainer) : Option String :=
  let t0 := if c.hasHeading then c.headingText else none
  if optTruthy t0 then t0
  else if (pyStrip (c.linkText.getD "")).length > 5 then
    some (pyStrip (c.linkText.getD ""))
  else t0

/-- The image resolution of strategy 2 (lines 193-196). -/
def genImg (c : GenContainer) : Option String :=
  pyOr c.imgSrc c.imgDataSrc

/-- Strategy 2 candidate for one container (lines 166-227).  The extra
`products` argument carries the running output list for the
`any(p['productUrl'] == full_url)` re-check. -/
def genCandidate (base : String) (seen : List String)
    (products : List Product) (c : GenContainer) :
    Option (String × String × String) :=
  if !c.hasImg then none
  else if !c.hasLink then none
  else
    match genTitle c with
    | none => none
    | some ttl =>
      if ttl = "" || ttl.length < 3 || lowerStr ttl ∈ seen then none
      else if !(optTruthy (genImg c)) then none
      else if !(is_valid_product_image ((genImg c).getD "")) then none
      else
        match c.href with
        | none => none
        | some purl =>
          if purl = "" then none
          else if urljoin base purl ∈ seen then none
          else if products.any (fun p => p.productUrl = urljoin base purl) then
            none
          else some (ttl, urljoin base ((genImg c).getD ""), urljoin base purl)

/-- One strategy-2 step. -/
def stepGen (base brand mc sc : String) (st : ExtSt) (c : GenContainer) :
    ExtSt :=
  match genCandidate base st.seen st.products c with
  | none => st
  | some (ttl, fimg, furl) =>
    { products := st.products ++
        [create_product ttl fimg furl brand mc sc]
      seen := furl :: lowerStr ttl :: st.seen }

/-! ### Strategy 3: JSON-LD structured data (lines 234-306)

An exception raised while a script block is processed is caught by the
per-script handler (`except: continue`), keeping whatever was appended
before the raise; the Boolean paired with the state below is that abort
flag. -/

/-- `data.get('@graph', [data]) if isinstance(data, dict) else (data if
isinstance(data, list) else [])`, followed by Python's `for item in items`:
iterating a string yields its one-character strings, iterating a dict yields
its keys, iterating `None`/a number/a Boolean raises (`none` here). -/
def jItemsOf : JVal → Option (List JVal)
  | .obj fs =>
    match jGet fs "@graph" with
    | none => some [.obj fs]
    | some (.arr xs) => some xs
    | some (.str s) => some (s.data.map (fun ch => JVal.str ⟨[ch]⟩))
    | some (.obj g) => some (g.map (fun f => JVal.str f.1))
    | some _ => none
  | .arr xs => some xs
  | _ => some []

/-- `item.get('@type', '')` followed by `item_type = item_type[0]` when the
value is a list; indexing an empty list raises (`none`). -/
def jTypeOf (fs : List (String × JVal)) : Option JVal :=
  match (jGet fs "@type").getD (.str "") with
  | .arr [] => none
  | .arr (x :: _) => some x
  | t => some t

/-- `for li in item.get('itemListElement', [])` with the same iteration
semantics as `jItemsOf`. -/
def jListElems (fs : List (String × JVal)) : Option (List JVal) :=
  match jGet fs "itemListElement" with
  | none => some []
  | some (.arr xs) => some xs
  | some (.str s) => some (s.data.map (fun ch => JVal.str ⟨[ch]⟩))
  | some (.obj g) => some (g.map (fun f => JVal.str f.1))
  | some _ => none

/-- The image unwrap of the `Product` branch (lines 256-260): a list takes
its first element (an empty list raises, `none` here), a dict takes its
`url` member; the outer `some` wraps the resulting Python value. -/
def prodImg (fs : List (String × JVal)) : Option (Option JVal) :=
  match jGet fs "image" with
  | some (.arr []) => none
  | some (.arr (x :: _)) => some (some x)
  | some (.obj g) => some (jGet g "url")
  | v => some v

/-- `p_url = item.get('url') or base_url` (line 262). -/
def prodUrlVal (base : String) (fs : List (String × JVal)) : JVal :=
  match jGet fs "url" with
  | some v => if jTruthy v then v else .str base
  | none => .str base

/-- The `Product` branch (lines 254-278).  `Except.error` replays a raise
(caught at the script boundary), `Except.ok none` a skip, `Except.ok (some
(name, img, url))` the append.  In source order: the image unwrap may
raise; with truthy name and image, `urljoin` raises on a non-string URL,
then on a non-string image; the `seen` guard short-circuits before
`p_name.lower()`, which raises on a non-string name. -/
def prodCand (base : String) (seen : List String)
    (fs : List (String × JVal)) :
    Except Unit (Option (String × String × String)) :=
  match prodImg fs with
  | none => .error ()
  | some p_img =>
    if optJTruthy (jGet fs "name") && optJTruthy p_img then
      match prodUrlVal base fs with
      | .str us =>
        match p_img with
        | some (.str is2) =>
          if urljoin base us ∈ seen then .ok none
          else
            match jGet fs "name" with
            | some (.str nm) =>
              if lowerStr nm ∈ seen then .ok none
              else .ok (some (nm, urljoin base is2, urljoin base us))
            | _ => .error ()
        | _ => .error ()
      | _ => .error ()
    else .ok none

/-- `full_img = urljoin(base_url, p_img) if p_img else ""` of the
`ItemList` branch (line 291): a truthy non-string image raises in
`urljoin` (`none` here). -/
def liImg (base : String) (pfs : List (String × JVal)) : Option String :=
  match jGet pfs "image" with
  | some v =>
    if jTruthy v then
      match v with
      | .str s => some (urljoin base s)
      | _ => none
    else some ""
  | none => some ""

/-- `p_url = product.get('url') or product.get('@id')` (line 286). -/
def liUrlVal (pfs : List (String × JVal)) : Option JVal :=
  match jGet pfs "url" with
  | some v => if jTruthy v then some v else jGet pfs "@id"
  | none => jGet pfs "@id"

/-- One `ItemList` entry (lines 281-302): `li` must be a dict whose `item`
is a truthy dict; name and `url or '@id'` must be truthy; a non-string URL
or a truthy non-string image raises in `urljoin`; an absent or falsy image
yields the empty string.  The appended name is `str(p_name)` since no
`.lower()` is applied to it on this path. -/
def liCand (base : String) (seen : List String) (li : JVal) :
    Except Unit (Option (String × String × String)) :=
  match li with
  | .obj lfs =>
    match jGet lfs "item" with
    | some (.obj pfs) =>
      if pfs.isEmpty then .ok none
      else if optJTruthy (jGet pfs "name") && optJTruthy (liUrlVal pfs) then
        match liUrlVal pfs with
        | some (.str us) =>
          match liImg base pfs with
          | none => .error ()
          | some full_img =>
            if urljoin base us ∈ seen then .ok none
            else .ok (some (pyStr ((jGet pfs "name").getD .null),
              full_img, urljoin base us))
        | _ => .error ()
      else .ok none
    | _ => .ok none
  | _ => .ok none

/-- The `ItemList` loop: entries in order, stopping the script on a raise;
an appended entry adds only its resolved URL to `seen`. -/
def procLis (base brand mc sc : String) :
    List JVal → ExtSt → ExtSt × Bool
  | [], st => (st, false)
  | li :: rest, st =>
    match liCand base st.seen li with
    | .error _ => (st, true)
    | .ok none => procLis base brand mc sc rest st
    | .ok (some (nm, fimg, furl)) =>
      procLis base brand mc sc rest
        { products := st.products ++
            [create_product nm fimg furl brand mc sc]
          seen := furl :: st.seen }

/-- One top-level item of a script block (lines 246-302). -/
def procItem (base brand mc sc : String) (it : JVal) (st : ExtSt) :
    ExtSt × Bool :=
  match it with
  | .obj fs =>
    match jTypeOf fs with
    | none => (st, true)
    | some tyv =>
      if jEqStr tyv "Product" then
        match prodCand base st.seen fs with
        | .error _ => (st, true)
        | .ok none => (st, false)
        | .ok (some (nm, fimg, furl)) =>
          ({ products := st.products ++
               [create_product nm fimg furl brand mc sc]
             seen := lowerStr nm :: furl :: st.seen }, false)
      else if jEqStr tyv "ItemList" then
        match jListElems fs with
        | none => (st, true)
        | some xs => procLis base brand mc sc xs st
      else (st, false)
  | _ => (st, false)

/-- All items of one script, stopping at the first raise. -/
def procItems (base brand mc sc : String) :
    List JVal → ExtSt → ExtSt
  | [], st => st
  | it :: rest, st =>
    match procItem base brand mc sc it st with
    | (st', true) => st'
    | (st', false) => procItems base brand mc sc rest st'

/-- One script block: a JSON parse failure or a raise before the first item
leaves the state unchanged (`except: continue`). -/
def procScript (base brand mc sc : String) (sc' : Option JVal) (st : ExtSt) :
    ExtSt :=
  match sc' with
  | none => st
  | some v =>
    match jItemsOf v with
    | none => st
    | some items => procItems base brand mc sc items st

/-- `extract_products_from_page` (lines 72-308): strategy 1 over the
WooCommerce containers, strategy 2 over the generic containers only when
strategy 1 yielded fewer than 5 products, strategy 3 over every JSON-LD
block; one shared `seen` set throughout.  The returned state carries the
`(products, seen)` pair the source returns. -/
def extract_products_from_page (page : PageModel)
    (base brand : String) (mc : String := "General") (sc : String := "") :
    ExtSt :=
  let st : ExtSt := { products := [], seen := [] }
  let st := page.wooContainers.foldl (stepWoo base brand mc sc) st
  let st :=
    if st.products.length < 5 then
      page.genContainers.foldl (stepGen base brand mc sc) st
    else st
  page.ldScripts.foldl (fun s blk => procScript base brand mc sc blk s) st

/-! ### Final deduplication (`scraper.py` lines 661-668) -/

/-- The uniqueness key `f"{p['model']}|{p['productUrl']}".lower()`. -/
def dedupKey (p : Product) : String :=
  lowerStr (p.model ++ "|" ++ p.productUrl)

/-- The dedup loop with its accumulated `seen_keys`: a record is kept when
its key is fresh and its image passes `is_valid_product_image`; only a kept
record claims its key. -/
def dedupAux : List Product → List String → List Product
  | [], _ => []
  | p :: rest, ks =>
    if dedupKey p ∉ ks ∧ is_valid_product_image p.imageUrl then
      p :: dedupAux rest (dedupKey p :: ks)
    else dedupAux rest ks

/-- The final deduplication step of `scrape_url`. -/
def dedupe_products (ps : List Product) : List Product :=
  dedupAux ps []

/-- Modelled from the spec's words for comparison (claim C7): keep, for each
key, the first record encountered with that key. -/
def firstPerKey : List Product → List String → List Product
  | [], _ => []
  | p :: rest, ks =>
    if dedupKey p ∈ ks then firstPerKey rest ks
    else p :: firstPerKey rest (dedupKey p :: ks)

/-- Modelled from the spec's words for comparison (claim C7): the
deduplication as the claim describes it — first keep only the first record
per key, then drop the records whose image fails the filter. -/
def specDedup (ps : List Product) : List Product :=
  (firstPerKey ps []).filter (fun p => is_valid_product_image p.imageUrl)

/-! ### Task store and background unit (`main.py`) -/

/-- The task dict of `main.py` (the fields the claims observe).  `products`,
`productCount` and `error` are absent (`none`) until written. -/
structure TaskRec where
  status : String
  progress : Nat
  stage : String
  brandName : String
  products : Option (List Product)
  productCount : Option Nat
  error : Option String
  deriving DecidableEq

/-- The record `scrape_endpoint` stores under the fresh task id before
returning (`main.py` lines 285-293). -/
def initialTask (scraper_type : String) (reqName : Option String) : TaskRec :=
  { status := "processing"
    progress := 10
    stage := "Initializing " ++ scraper_type ++ " scraper..."
    brandName := reqName.getD "Detecting..."
    products := none
    productCount := none
    error := none }

/-- The async branch of `scrape_endpoint`: store the initial record, hand
the work to the background runner, and answer at once with the task id. -/
def scrape_endpoint_async (taskId scraper_type : String)
    (reqName : Option String) : TaskRec × String :=
  (initialTask scraper_type reqName, taskId)

/-- `cancel_task` (`main.py` lines 98-105) on a found record: set status and
stage unconditionally.  (The unknown-id branch answers 404 and touches no
record.) -/
def cancel_task (t : TaskRec) : TaskRec :=
  { t with status := "cancelled", stage := "Cancelled by user" }

/-- The writes `run_scrape_task` performs on entry (lines 207-209). -/
def bgEntry (scraper_type : String) (t : TaskRec) : TaskRec :=
  { t with status := "processing"
           progress := 20
           stage := "Running " ++ scraper_type ++ " scraper..." }

/-- When the external cancellation request lands, relative to the
background unit's execution.  `duringScrape k` means: after `k` of the
scraper's page fetches have completed (the landing page is fetch 1) and
before the next event. -/
inductive CancelPoint where
  | beforeStart : CancelPoint
  | duringScrape : Nat → CancelPoint
  | afterScrape : CancelPoint
  | never : CancelPoint
  deriving DecidableEq

/-- Does the cancel land while the scraper is running? -/
def CancelPoint.isDuring : CancelPoint → Bool
  | .duringScrape _ => true
  | _ => false

/-- `run_scrape_task` (`main.py` lines 204-255) on a successful scrape, with
the cancellation request injected at `cp`.  The scraper (`scrape_url`)
performs its `nFetches` page fetches without ever consulting the task
record, so the flag is read exactly twice: once before the scraper is
invoked and once after it returns.  The result pairs the final task record
with the number of fetches performed. -/
def run_scrape_task (t0 : TaskRec) (scraper_type : String) (nFetches : Nat)
    (resultProducts : List Product) (cp : CancelPoint) : TaskRec × Nat :=
  let t := if cp = .beforeStart then cancel_task t0 else t0
  let t := bgEntry scraper_type t
  if t.status = "cancelled" then (t, 0)
  else
    let t := if cp.isDuring || cp = .afterScrape then cancel_task t else t
    if t.status = "cancelled" then (t, nFetches)
    else
      ({ t with status := "completed"
                progress := 100
                stage := "Complete!"
                products := some resultProducts
                productCount := some resultProducts.length }, nFetches)

/-! ### The category crawl loop of `scrape_url` (`scraper.py` lines 563-659)

The per-page work that does not touch the frontier is abstracted into an
environment: `subcatsOf u` is the list the subcategory discovery block
(lines 588-627) builds from the page at `u` before its own
`all_seen`/same-URL filter, `extractSeenOf u` the `seen` set
`extract_products_from_page` returns for that page, `pagOf u` the list
`find_pagination` returns, and `fetchOk u` whether the fetch succeeds
(a failure is caught and the category skipped). -/

/-- A frontier entry (the category dicts of `discover_category_pages`). -/
structure CatDesc where
  url : String
  title : String
  mainCategory : String
  subCategory : String
  deriving DecidableEq

/-- The abstracted per-page environment. -/
structure CrawlEnv where
  fetchOk : String → Bool
  subcatsOf : String → List CatDesc
  extractSeenOf : String → List String
  pagOf : String → List String

/-- The crawl state: the `all_seen` URL set, the trace of attempted page
fetches in order, and the mutable `categories` list that
`categories.extend(subcats_found)` grows. -/
structure CrawlState where
  allSeen : List String
  fetched : List String
  categories : List CatDesc

/-- One pagination follow-through (lines 643-655). -/
def pagStep (env : CrawlEnv) (st : CrawlState) (pg : String) : CrawlState :=
  if pg ∈ st.allSeen then st
  else
    let st := { st with allSeen := pg :: st.allSeen
                        fetched := st.fetched ++ [pg] }
    if env.fetchOk pg then
      { st with allSeen := env.extractSeenOf pg ++ st.allSeen }
    else st

/-- One iteration of the category loop (lines 564-659): resolve labels with
the URL-derived override, skip visited URLs, mark visited, fetch; on
success, run the subcategory discovery when the labels coincide (its
findings, filtered against `all_seen` and the category's own URL, extend
the `categories` list), merge the extractor's `seen` set, and follow at
most 5 pagination links. -/
def crawlStep (env : CrawlEnv) (st : CrawlState) (c : CatDesc) : CrawlState :=
  let mcsc := resolveLabels c.url c.mainCategory c.subCategory
  if c.url ∈ st.allSeen then st
  else
    let st := { st with allSeen := c.url :: st.allSeen
                        fetched := st.fetched ++ [c.url] }
    if !(env.fetchOk c.url) then st
    else
      let st :=
        if mcsc.1 = mcsc.2 then
          let subs := (env.subcatsOf c.url).filter
            (fun d => d.url ∉ st.allSeen && d.url ≠ c.url)
          if !subs.isEmpty then
            { st with categories := st.categories ++ subs }
          else st
        else st
      let st := { st with allSeen := env.extractSeenOf c.url ++ st.allSeen }
      ((env.pagOf c.url).take 5).foldl (pagStep env) st

/-- The category loop itself.  `for cat in categories[:30]` iterates over
the snapshot `categories.take 30` built once at loop entry; the
`categories` field of the state grows when subcategories are discovered,
but the iteration sequence is the snapshot. -/
def crawlCategories (env : CrawlEnv) (initCats : List CatDesc)
    (initSeen : List String) : CrawlState :=
  (initCats.take 30).foldl (crawlStep env)
    { allSeen := initSeen, fetched := [], categories := initCats }

/-! ### Claim C6: the image validity filter -/

/-- Substring test agrees with the contiguous-sublist relation. -/
theorem strIn_iff (t s : String) : strIn t s = true ↔ t.data <:+: s.data :=
  infixScan_iff t.data s.data

/-- Negative form of `strIn_iff`. -/
theorem strIn_eq_false_iff (t s : String) :
    strIn t s = false ↔ ¬ t.data <:+: s.data := by
  rw [Bool.eq_false_iff, Ne, strIn_iff]

/-- Claim C6: `isValidProductImage` returns `false` exactly on URLs that are
empty or shorter than 10 characters or whose lowercase form contains a
block-list token; it returns `true` on every URL of length at least 10
whose lowercase form contains no blocked token. -/
theorem c6_image_filter (url : String) :
    is_valid_product_image url = true ↔
      (10 ≤ url.length ∧
        ∀ t ∈ IMAGE_EXCLUDE, ¬ t.data <:+: (lowerStr url).data) := by
  unfold is_valid_product_image
  split
  · rename_i h
    simp only [Bool.or_eq_true, decide_eq_true_eq] at h
    constructor
    · intro hf; cases hf
    · rintro ⟨hlen, -⟩
      rcases h with h | h
      · subst h; simp at hlen
      · omega
  · rename_i h
    simp only [Bool.or_eq_true, decide_eq_true_eq, not_or, Nat.not_lt] at h
    simp only [Bool.not_eq_true', List.any_eq_false, strIn_eq_false_iff,
      h.2, true_and, strIn_iff]

/-! ### Claims C7 and C8: the final deduplication step -/

/-- Core helper: the dedup loop keeps, among the records with a valid
image, the first one per key — a record with an invalid image does not
claim its key. -/
theorem dedupAux_eq_firstPerKey (ps : List Product) : ∀ ks : List String,
    dedupAux ps ks =
      firstPerKey (ps.filter (fun p => is_valid_product_image p.imageUrl)) ks := by
  induction ps with
  | nil => intro ks; rfl
  | cons p rest ih =>
    intro ks
    by_cases hv : is_valid_product_image p.imageUrl = true
    · by_cases hk : dedupKey p ∈ ks
      · simp [dedupAux, firstPerKey, List.filter_cons, hv, hk, ih]
      · simp [dedupAux, firstPerKey, List.filter_cons, hv, hk, ih]
    · have hv' : is_valid_product_image p.imageUrl = false :=
        Bool.eq_false_iff.mpr hv
      simp [dedupAux, List.filter_cons, hv, hv', ih]

/-- Concrete record with an invalid (blocked) image URL, for claim C7. -/
def cexP1 : Product :=
  { mainCategory := "General", subCategory := "General", family := "B"
    model := "Chair", description := "Chair"
    imageUrl := "https://h.com/logo.png"
    productUrl := "https://h.com/p/1", price := 0 }

/-- Concrete record with the same uniqueness key as `cexP1` and a valid
image URL, for claim C7. -/
def cexP2 : Product :=
  { mainCategory := "General", subCategory := "General", family := "B"
    model := "Chair", description := "Chair"
    imageUrl := "https://h.com/photo1.jpg"
    productUrl := "https://h.com/p/1", price := 0 }

/-- Claim C7 fails as stated: the two records share one uniqueness key, yet
the code keeps the *second* one (the first holder of the key has an invalid
image and does not claim the key), while the claimed behaviour — first
record per key kept, invalid images dropped — produces the empty list. -/
theorem c7_counterexample :
    dedupKey cexP1 = dedupKey cexP2 ∧ cexP1 ≠ cexP2 ∧
    dedupe_products [cexP1, cexP2] = [cexP2] ∧
    specDedup [cexP1, cexP2] = [] := by
  decide

/-- Claim C7 (amended): the deduplication step keeps, for each uniqueness
key, the first record encountered *whose image passes the validity filter*;
records failing the filter are dropped without claiming their key, and the
output preserves the original order. -/
theorem c7_dedup_amended (ps : List Product) :
    dedupe_products ps =
      firstPerKey (ps.filter (fun p => is_valid_product_image p.imageUrl)) [] :=
  dedupAux_eq_firstPerKey ps []

/-- Helper: every record the dedup loop emits has a valid image. -/
theorem dedupAux_valid (ps : List Product) : ∀ ks : List String,
    ∀ p ∈ dedupAux ps ks, is_valid_product_image p.imageUrl = true := by
  induction ps with
  | nil => intro ks p hp; cases hp
  | cons q rest ih =>
    intro ks p hp
    by_cases hg : dedupKey q ∉ ks ∧ is_valid_product_image q.imageUrl
    · rw [dedupAux, if_pos hg] at hp
      rcases List.mem_cons.mp hp with rfl | hp'
      · exact hg.2
      · exact ih _ p hp'
    · rw [dedupAux, if_neg hg] at hp
      exact ih _ p hp

/-- Helper: the dedup loop emits pairwise distinct keys, none of them in
the incoming `seen_keys` accumulator. -/
theorem dedupAux_keys (ps : List Product) : ∀ ks : List String,
    (dedupAux ps ks).Pairwise (fun a b => dedupKey a ≠ dedupKey b) ∧
      ∀ p ∈ dedupAux ps ks, dedupKey p ∉ ks := by
  induction ps with
  | nil => intro ks; exact ⟨List.Pairwise.nil, by intro p hp; cases hp⟩
  | cons q rest ih =>
    intro ks
    by_cases hg : dedupKey q ∉ ks ∧ is_valid_product_image q.imageUrl
    · rw [dedupAux, if_pos hg]
      obtain ⟨ihpw, ihk⟩ := ih (dedupKey q :: ks)
      refine ⟨List.Pairwise.cons ?_ ihpw, ?_⟩
      · intro b hb
        have := ihk b hb
        intro hEq
        exact this (hEq ▸ List.mem_cons_self _ _)
      · intro p hp
        rcases List.mem_cons.mp hp with rfl | hp'
        · exact hg.1
        · intro hin
          exact ihk p hp' (List.mem_cons_of_mem _ hin)
    · rw [dedupAux, if_neg hg]
      obtain ⟨ihp, ihk⟩ := ih ks
      exact ⟨ihp, ihk⟩

/-- Helper: on a list of valid-image records with pairwise fresh keys, the
dedup loop is the identity. -/
theorem dedupAux_id (l : List Product) : ∀ ks : List String,
    (∀ p ∈ l, is_valid_product_image p.imageUrl = true) →
    l.Pairwise (fun a b => dedupKey a ≠ dedupKey b) →
    (∀ p ∈ l, dedupKey p ∉ ks) →
    dedupAux l ks = l := by
  induction l with
  | nil => intro ks _ _ _; rfl
  | cons q rest ih =>
    intro ks hval hpw hks
    have hg : dedupKey q ∉ ks ∧ is_valid_product_image q.imageUrl :=
      ⟨hks q (List.mem_cons_self _ _), hval q (List.mem_cons_self _ _)⟩
    rw [dedupAux, if_pos hg]
    congr 1
    refine ih (dedupKey q :: ks)
      (fun p hp => hval p (List.mem_cons_of_mem _ hp))
      (List.Pairwise.sublist (List.sublist_cons_self _ _) hpw) ?_
    intro p hp hin
    rcases List.mem_cons.mp hin with hEq | hin'
    · exact (List.rel_of_pairwise_cons hpw hp) hEq.symm
    · exact hks p (List.mem_cons_of_mem _ hp) hin'

/-- Claim C8: the final deduplication step is idempotent — applied to its
own output it returns that output unchanged. -/
theorem c8_dedup_idempotent (ps : List Product) :
    dedupe_products (dedupe_products ps) = dedupe_products ps := by
  unfold dedupe_products
  refine dedupAux_id _ []
    (fun p hp => dedupAux_valid ps [] p hp)
    (dedupAux_keys ps []).1 ?_
  intro p _ hin
  cases hin

/-! ### Claim C2: cancel on a terminal job -/

/-- Concrete completed task record, for claim C2. -/
def cexCompletedTask : TaskRec :=
  { status := "completed", progress := 100, stage := "Complete!"
    brandName := "B", products := some [], productCount := some 0
    error := none }

/-- Claim C2 fails as stated: on a job whose status is the terminal
`completed`, a further cancel call is not a no-op — it rewrites the record
(status becomes `cancelled`). -/
theorem c2_counterexample :
    cexCompletedTask.status = "completed" ∧
    cancel_task cexCompletedTask ≠ cexCompletedTask ∧
    (cancel_task cexCompletedTask).status = "cancelled" := by
  decide

/-- Claim C2 (amended): a further cancel call on any job — terminal or not —
always sets status to `cancelled` and stage to `Cancelled by user`, leaves
every other field unchanged, and is idempotent (a second cancel changes
nothing); it is a no-op only on a job already carrying those two values. -/
theorem c2_cancel_amended (t : TaskRec) :
    (cancel_task t).status = "cancelled" ∧
    (cancel_task t).stage = "Cancelled by user" ∧
    (cancel_task t).progress = t.progress ∧
    (cancel_task t).brandName = t.brandName ∧
    (cancel_task t).products = t.products ∧
    (cancel_task t).productCount = t.productCount ∧
    (cancel_task t).error = t.error ∧
    cancel_task (cancel_task t) = cancel_task t := by
  refine ⟨rfl, rfl, rfl, rfl, rfl, rfl, rfl, rfl⟩

/-! ### Claim C3: the status of a freshly submitted job -/

/-- Claim C3 fails as stated: the record created by the async submission
already carries the status string `processing` — the very status the
background unit runs under — not a distinct `queued` state; starting the
background unit changes progress, not status. -/
theorem c3_counterexample :
    (initialTask "universal" none).status = "processing" ∧
    (initialTask "universal" none).status ≠ "queued" ∧
    (bgEntry "universal" (initialTask "universal" none)).status =
      (initialTask "universal" none).status := by
  decide

/-- Claim C3 (amended): the async submission stores the job and answers at
once with the task id, but the new job's status is already `processing`
(progress 10, no products yet); when the background unit starts it keeps
the status and only raises progress to 20. -/
theorem c3_create_amended (taskId scraper_type : String)
    (reqName : Option String) :
    (scrape_endpoint_async taskId scraper_type reqName).2 = taskId ∧
    (scrape_endpoint_async taskId scraper_type reqName).1 =
      initialTask scraper_type reqName ∧
    (initialTask scraper_type reqName).status = "processing" ∧
    (initialTask scraper_type reqName).progress = 10 ∧
    (initialTask scraper_type reqName).products = none ∧
    (bgEntry scraper_type (initialTask scraper_type reqName)).status =
      "processing" ∧
    (bgEntry scraper_type (initialTask scraper_type reqName)).progress = 20 :=
  ⟨rfl, rfl, rfl, rfl, rfl, rfl, rfl⟩

/-! ### Claim C1: cancellation checkpoints of the background unit -/

/-- Claim C1 fails as stated: with a two-fetch crawl (landing page plus one
category page) and the cancellation requested right after the landing fetch
(point 1), the claimed behaviour — stop at the next between-fetch check —
would perform exactly 1 fetch, but the code performs both fetches: the
scraper never consults the flag, which is read only after it returns. -/
theorem c1_counterexample :
    (run_scrape_task (initialTask "universal" none) "universal" 2 []
        (.duringScrape 1)).2 = 2 ∧
    (2 : Nat) ≠ 1 ∧
    (run_scrape_task (initialTask "universal" none) "universal" 2 []
        (.duringScrape 1)).1.status = "cancelled" := by
  decide

/-- Claim C1 (amended): the cancellation flag is read exactly twice — before
the scraper is invoked and after it returns — so a cancellation requested
while the scraper runs (in particular after the landing fetch and before
any category fetch) does not stop the remaining fetches: all `n` fetches
are performed; the job nevertheless ends `cancelled` and never
`completed`. -/
theorem c1_cancel_amended (scraper_type : String) (reqName : Option String)
    (n k : Nat) (res : List Product) (h : k ≤ n) :
    (run_scrape_task (initialTask scraper_type reqName) scraper_type n res
        (.duringScrape k)).1.status = "cancelled" ∧
    (run_scrape_task (initialTask scraper_type reqName) scraper_type n res
        (.duringScrape k)).1.status ≠ "completed" ∧
    (run_scrape_task (initialTask scraper_type reqName) scraper_type n res
        (.duringScrape k)).2 = n := by
  refine ⟨rfl, ?_, rfl⟩
  intro hc
  have h1 : (run_scrape_task (initialTask scraper_type reqName) scraper_type
      n res (.duringScrape k)).1.status = "cancelled" := rfl
  rw [h1] at hc
  exact absurd hc (by decide)

/-- Witness for claim C1's amended theorem at the concrete scenario of the
claim: landing fetch done (k = 1), one category fetch pending (n = 2). -/
theorem c1_witness :
    (run_scrape_task (initialTask "universal" none) "universal" 2 []
        (.duringScrape 1)).1.status = "cancelled" :=
  (c1_cancel_amended "universal" none 2 1 [] (by decide)).1

/-! ### Claim C4: discovered subcategories are never crawled -/

/-- Concrete initial frontier entry for claim C4 (a category with no
distinct menu subcategory, so the second-level discovery runs). -/
def c4Cat : CatDesc :=
  { url := "https://h.com/chairs/", title := "Chairs"
    mainCategory := "Chairs", subCategory := "Chairs" }

/-- Concrete discovered subcategory descriptor for claim C4. -/
def c4Sub : CatDesc :=
  { url := "https://h.com/chairs/executive-chairs/"
    title := "Executive Chairs"
    mainCategory := "Chairs", subCategory := "Executive Chairs" }

/-- Concrete crawl environment for claim C4: every fetch succeeds, the page
of the one frontier category exposes one subcategory link, extraction and
pagination find nothing. -/
def c4Env : CrawlEnv :=
  { fetchOk := fun _ => true
    subcatsOf := fun u => if u = "https://h.com/chairs/" then [c4Sub] else []
    extractSeenOf := fun _ => []
    pagOf := fun _ => [] }

/-- Claim C4 (code bug): the discovered subcategory descriptor is appended
to the `categories` list, its URL is unvisited and the 30-entry cap is far
from exhausted, yet it is never fetched — the loop iterates over the
snapshot `categories[:30]` taken before any extension, so the only page
ever fetched is the original category. -/
theorem c4_subcats_never_crawled :
    (crawlCategories c4Env [c4Cat] []).categories = [c4Cat, c4Sub] ∧
    c4Sub.url ∈ ((crawlCategories c4Env [c4Cat] []).categories.map
      (fun c => c.url)) ∧
    (crawlCategories c4Env [c4Cat] []).fetched = ["https://h.com/chairs/"] ∧
    c4Sub.url ∉ (crawlCategories c4Env [c4Cat] []).fetched ∧
    (crawlCategories c4Env [c4Cat] []).categories.length ≤ 30 := by
  decide

/-! ### Claim C9: category-label precedence -/

/-- A string built from a non-empty character list is non-empty. -/
theorem mkStr_ne_empty {l : List Char} (h : l ≠ []) : (⟨l⟩ : String) ≠ "" :=
  fun hEq => h (congrArg String.data hEq)

/-- Titlecasing a dash-expanded non-empty string stays non-empty. -/
theorem pyTitle_dash_ne_empty (s : String) (h : s ≠ "") :
    pyTitle (dashToSpace s) ≠ "" := by
  cases s with
  | mk d =>
    cases d with
    | nil => exact absurd rfl h
    | cons c cs =>
      intro hEq
      have hd := congrArg String.data hEq
      simp [pyTitle, dashToSpace, pyTitleAux] at hd

/-- Claim C9: the parser resolves the path
`/product-category/chairs/executive-chairs/` to
`("Chairs", "Executive Chairs")`; at that URL the resolved pair overrides
any menu-derived labels; and in general, whenever the path contributes at
least two segments whose titlecased first and last differ, the URL-derived
pair overrides the menu-derived labels. -/
theorem c9_category_label_precedence :
    parse_woocommerce_category_url
        "https://site.com/product-category/chairs/executive-chairs/" =
      (some "Chairs", some "Executive Chairs") ∧
    (∀ mm sm, resolveLabels
        "https://site.com/product-category/chairs/executive-chairs/" mm sm =
      ("Chairs", "Executive Chairs")) ∧
    (∀ url mm sm p q rest, wooParts url = p :: q :: rest →
      pyTitle (dashToSpace p) ≠
        pyTitle (dashToSpace
          ((p :: q :: rest).getLast (List.cons_ne_nil p (q :: rest)))) →
      resolveLabels url mm sm =
        (pyTitle (dashToSpace p),
         pyTitle (dashToSpace
           ((p :: q :: rest).getLast (List.cons_ne_nil p (q :: rest)))))) := by
  refine ⟨by decide, ?_, ?_⟩
  · intro mm sm
    unfold resolveLabels
    rw [show parse_woocommerce_category_url
        "https://site.com/product-category/chairs/executive-chairs/" =
      (some "Chairs", some "Executive Chairs") from by decide]
    rfl
  · intro url mm sm p q rest hParts hNe
    have hp_mem : p ∈ wooParts url := by
      rw [hParts]; exact List.mem_cons_self _ _
    have hl_mem : (p :: q :: rest).getLast (List.cons_ne_nil p (q :: rest)) ∈
        wooParts url := by
      rw [hParts]; exact List.getLast_mem _
    unfold wooParts at hp_mem hl_mem
    have hp_ne : p ≠ "" := by
      have h2 := List.of_mem_filter hp_mem
      simp only [Bool.and_eq_true, decide_eq_true_eq] at h2
      exact h2.1
    have hl_ne : (p :: q :: rest).getLast (List.cons_ne_nil p (q :: rest)) ≠ "" := by
      have h2 := List.of_mem_filter hl_mem
      simp only [Bool.and_eq_true, decide_eq_true_eq] at h2
      exact h2.1
    have hm_ne := pyTitle_dash_ne_empty p hp_ne
    have hs_ne := pyTitle_dash_ne_empty _ hl_ne
    rw [List.getLast_cons (List.cons_ne_nil q rest)] at hNe hs_ne ⊢
    simp [resolveLabels, parse_woocommerce_category_url, hParts, hNe,
      hm_ne, hs_ne]

/-- Witness for claim C9's general override conjunct at the claimed URL
(menu labels `Seating`/`Seating` are overridden). -/
theorem c9_witness :
    wooParts "https://site.com/product-category/chairs/executive-chairs/" =
      ["chairs", "executive-chairs"] ∧
    resolveLabels "https://site.com/product-category/chairs/executive-chairs/"
      "Seating" "Seating" = ("Chairs", "Executive Chairs") := by
  refine ⟨by decide, ?_⟩
  have h := c9_category_label_precedence.2.2
    "https://site.com/product-category/chairs/executive-chairs/"
    "Seating" "Seating" "chairs" "executive-chairs" [] (by decide) (by decide)
  exact h.trans (by decide)

/-! ### Absoluteness of resolved URLs (for claims C5 and C10) -/

/-- Unfolding `hasScheme` on a string with known cons-shaped data. -/
theorem hasScheme_of_data {s : String} {c : Char} {l : List Char}
    (hd : s.data = c :: l) (h1 : c.isAlpha = true)
    (h2 : schemeTail l = true) : hasScheme s = true := by
  unfold hasScheme
  rw [hd]
  show (c.isAlpha && schemeTail l) = true
  rw [h1, h2]
  rfl

/-- A scheme tail survives appending further characters. -/
theorem schemeTail_append (t : List Char) : ∀ l : List Char,
    schemeTail l = true → schemeTail (l ++ t) = true := by
  intro l
  induction l with
  | nil => intro h; cases h
  | cons c cs ih =>
    intro h
    rw [schemeTail] at h
    by_cases hc : c = ':'
    · simp [schemeTail, hc]
    · rw [if_neg hc] at h
      rcases Bool.and_eq_true _ _ |>.mp h with ⟨h1, h2⟩
      have h3 := ih h2
      rw [List.cons_append, schemeTail, if_neg hc, h1, h3]
      rfl

/-- A string with a scheme keeps it under appending. -/
theorem hasScheme_append (a b : String) (h : hasScheme a = true) :
    hasScheme (a ++ b) = true := by
  cases a with
  | mk d =>
    cases d with
    | nil => cases h
    | cons c cs =>
      rw [hasScheme] at h
      rcases Bool.and_eq_true _ _ |>.mp h with ⟨h1, h2⟩
      exact hasScheme_of_data (s := String.mk (c :: cs) ++ b) rfl h1
        (schemeTail_append b.data cs h2)

/-- A colon-terminated prefix of a valid scheme tail is again a valid
scheme tail once the colon is restored. -/
theorem schemeTail_takeWhile (y : List Char) : ∀ l : List Char,
    schemeTail l = true →
    schemeTail ((l.takeWhile (fun c => c ≠ ':')) ++ ':' :: y) = true := by
  intro l
  induction l with
  | nil => intro h; cases h
  | cons d ds ih =>
    intro h
    rw [schemeTail] at h
    by_cases hd : d = ':'
    · subst hd
      simp [List.takeWhile_cons, schemeTail]
    · rw [if_neg hd] at h
      rcases Bool.and_eq_true _ _ |>.mp h with ⟨h1, h2⟩
      have hTw : (d :: ds).takeWhile (fun c => decide (c ≠ ':')) =
          d :: ds.takeWhile (fun c => decide (c ≠ ':')) := by
        simp [List.takeWhile_cons, hd]
      rw [hTw, List.cons_append, schemeTail, if_neg hd, h1, ih h2]
      rfl

/-- An alphabetic character is not a colon. -/
theorem isAlpha_ne_colon {c : Char} (h : c.isAlpha = true) : c ≠ ':' := by
  intro hEq
  subst hEq
  cases h

/-- Every branch of `urljoin` yields a URL with a scheme when the base has
one: the resolved URL is absolute. -/
theorem hasScheme_urljoin (base rel : String) (hb : hasScheme base = true) :
    hasScheme (urljoin base rel) = true := by
  unfold urljoin
  split
  · exact hb
  · split
    · assumption
    · split
      · -- the `//netloc` branch: scheme of the base, colon, then the rest
        cases base with
        | mk d =>
          cases d with
          | nil => cases hb
          | cons c cs =>
            rw [hasScheme] at hb
            rcases Bool.and_eq_true _ _ |>.mp hb with ⟨h1, h2⟩
            have hc : c ≠ ':' := isAlpha_ne_colon h1
            have hdata : (schemeOf ⟨c :: cs⟩ ++ ":" ++ rel).data =
                c :: ((cs.takeWhile (fun c => c ≠ ':')) ++ ':' :: rel.data) := by
              show (List.takeWhile _ (c :: cs) ++ (':' :: [])) ++ rel.data = _
              simp [List.takeWhile_cons, hc]
            exact hasScheme_of_data hdata h1
              (schemeTail_takeWhile rel.data cs h2)
      · split
        · exact hasScheme_append base rel hb
        · split
          · exact hasScheme_append base rel hb
          · exact hasScheme_append (base ++ "/") rel
              (hasScheme_append base "/" hb)


/-- What a successful strategy-1 candidate guarantees: non-empty title,
image and product URLs resolved through `urljoin`, and a resolved product
URL absent from `seen`. -/
theorem wooCandidate_spec {base : String} {seen : List String}
    {c : WooContainer} {t fi fu : String}
    (h : wooCandidate base seen c = some (t, fi, fu)) :
    t ≠ "" ∧ (∃ a, fi = urljoin base a) ∧ (∃ b, fu = urljoin base b) ∧
      fu ∉ seen := by
  unfold wooCandidate at h
  split at h
  · cases h
  · split at h
    · cases h
    · rename_i ttl hguard
      split at h
      · cases h
      · split at h
        · cases h
        · split at h
          · cases h
          · rename_i purl
            split at h
            · cases h
            · split at h
              · cases h
              · rename_i hfu
                injection h with h2
                injection h2 with hA h3
                injection h3 with hB hC
                subst hA; subst hB; subst hC
                simp only [Bool.or_eq_true, decide_eq_true_eq, not_or] at hguard
                exact ⟨hguard.1, ⟨_, rfl⟩, ⟨_, rfl⟩, hfu⟩

/-- What a successful strategy-2 candidate guarantees. -/
theorem genCandidate_spec {base : String} {seen : List String}
    {products : List Product} {c : GenContainer} {t fi fu : String}
    (h : genCandidate base seen products c = some (t, fi, fu)) :
    t ≠ "" ∧ (∃ a, fi = urljoin base a) ∧ (∃ b, fu = urljoin base b) ∧
      fu ∉ seen := by
  unfold genCandidate at h
  split at h
  · cases h
  · split at h
    · cases h
    · split at h
      · cases h
      · split at h
        · cases h
        · rename_i ttl hguard
          split at h
          · cases h
          · split at h
            · cases h
            · split at h
              · cases h
              · rename_i purl
                split at h
                · cases h
                · split at h
                  · cases h
                  · rename_i hfu
                    split at h
                    · cases h
                    · injection h with h2
                      injection h2 with hA h3
                      injection h3 with hB hC
                      subst hA; subst hB; subst hC
                      simp only [Bool.or_eq_true, decide_eq_true_eq,
                        not_or] at hguard
                      exact ⟨hguard.1.1, ⟨_, rfl⟩, ⟨_, rfl⟩, hfu⟩

/-- The decimal rendering of a natural number is never the empty digit
list. -/
theorem natDigits_ne_nil (n : Nat) : natDigits n ≠ [] := by
  unfold natDigits
  split
  · simp
  · simp

/-- Python `str()` of a truthy JSON value is non-empty. -/
theorem pyStr_ne_empty {v : JVal} (h : jTruthy v = true) : pyStr v ≠ "" := by
  cases v with
  | null => cases h
  | bool b =>
    cases b
    · cases h
    · exact mkStr_ne_empty (by simp)
  | num n =>
    show (if n < 0 then (⟨'-' :: natDigits (-n).toNat⟩ : String)
      else (⟨natDigits n.toNat⟩ : String)) ≠ ""
    split
    · exact mkStr_ne_empty (by simp)
    · exact mkStr_ne_empty (natDigits_ne_nil _)
  | str s => simpa [jTruthy] using h
  | arr xs => exact mkStr_ne_empty (by simp)
  | obj fs => exact mkStr_ne_empty (by simp)

/-- What a successful `Product`-branch candidate guarantees. -/
theorem prodCand_spec {base : String} {seen : List String}
    {fs : List (String × JVal)} {t fi fu : String}
    (h : prodCand base seen fs = .ok (some (t, fi, fu))) :
    t ≠ "" ∧ (∃ a, fi = urljoin base a) ∧ (∃ b, fu = urljoin base b) ∧
      fu ∉ seen := by
  unfold prodCand at h
  split at h
  · cases h
  · split at h
    · rename_i p_img hguard
      split at h
      · split at h
        · rename_i hus his
          split at h
          · cases h
          · rename_i hfu
            split at h
            · rename_i nm hnm
              split at h
              · cases h
              · injection h with h1
                injection h1 with h2
                injection h2 with hA h3
                injection h3 with hB hC
                subst hA; subst hB; subst hC
                refine ⟨?_, ⟨_, rfl⟩, ⟨_, rfl⟩, hfu⟩
                rw [Bool.and_eq_true, hnm] at hguard
                simpa [optJTruthy, jTruthy] using hguard.1
            · cases h
        · cases h
      · cases h
    · cases h

/-- What a successful `ItemList`-entry candidate guarantees: the name is
non-empty, the image URL is resolved or empty, the product URL is resolved
and absent from `seen`. -/
theorem liCand_spec {base : String} {seen : List String} {li : JVal}
    {t fi fu : String}
    (h : liCand base seen li = .ok (some (t, fi, fu))) :
    t ≠ "" ∧ (fi = "" ∨ ∃ a, fi = urljoin base a) ∧
      (∃ b, fu = urljoin base b) ∧ fu ∉ seen := by
  unfold liCand at h
  split at h
  · rename_i lfs
    split at h
    · rename_i pfs hpfs
      split at h
      · cases h
      · split at h
        · rename_i hguard
          split at h
          · rename_i us hus
            split at h
            · cases h
            · rename_i fimg hfimg
              split at h
              · cases h
              · rename_i hfu
                injection h with h1
                injection h1 with h2
                injection h2 with hA h3
                injection h3 with hB hC
                subst hA; subst hB; subst hC
                refine ⟨?_, ?_, ⟨_, rfl⟩, hfu⟩
                · rw [Bool.and_eq_true] at hguard
                  rcases hname : jGet pfs "name" with _ | v
                  · rw [hname] at hguard
                    cases hguard.1
                  · rw [hname] at hguard
                    have hv : jTruthy v = true := by
                      simpa [optJTruthy] using hguard.1
                    simpa [hname] using pyStr_ne_empty hv
                · -- the image is `""` or a urljoin, by cases on `liImg`
                  unfold liImg at hfimg
                  split at hfimg
                  · split at hfimg
                    · split at hfimg
                      · injection hfimg with hF
                        exact Or.inr ⟨_, hF.symm⟩
                      · cases hfimg
                    · injection hfimg with hF
                      exact Or.inl hF.symm
                  · injection hfimg with hF
                    exact Or.inl hF.symm
          · cases h
        · cases h
    · cases h
  · cases h

/-- The joint extraction invariant: every record's resolved product URL is
in `seen`, product URLs are pairwise distinct, and every record has a
non-empty name, a `urljoin`-resolved product URL, and an image URL that is
resolved or empty. -/
def ExtInv (base : String) (st : ExtSt) : Prop :=
  (∀ p ∈ st.products, p.productUrl ∈ st.seen) ∧
  st.products.Pairwise (fun a b => a.productUrl ≠ b.productUrl) ∧
  ∀ p ∈ st.products, p.model ≠ "" ∧
    (∃ b, p.productUrl = urljoin base b) ∧
    (p.imageUrl = "" ∨ ∃ b, p.imageUrl = urljoin base b)

/-- Appending a fresh, well-formed record (and growing `seen` so that it
contains the record's URL) preserves the invariant. -/
theorem ExtInv_append {base : String} {st : ExtSt} {p : Product}
    {s2 : List String}
    (hInv : ExtInv base st)
    (hsub : ∀ x ∈ st.seen, x ∈ s2)
    (hnew : p.productUrl ∈ s2)
    (hold : p.productUrl ∉ st.seen)
    (hname : p.model ≠ "")
    (hpu : ∃ b, p.productUrl = urljoin base b)
    (him : p.imageUrl = "" ∨ ∃ b, p.imageUrl = urljoin base b) :
    ExtInv base { products := st.products ++ [p], seen := s2 } := by
  obtain ⟨h1, h2, h3⟩ := hInv
  refine ⟨?_, ?_, ?_⟩
  · intro q hq
    rcases List.mem_append.mp hq with hq | hq
    · exact hsub _ (h1 q hq)
    · rcases List.mem_singleton.mp hq with rfl
      exact hnew
  · rw [List.pairwise_append]
    refine ⟨h2, List.pairwise_singleton _ _, ?_⟩
    intro a ha b hb
    rcases List.mem_singleton.mp hb with rfl
    intro hEq
    exact hold (hEq ▸ h1 a ha)
  · intro q hq
    rcases List.mem_append.mp hq with hq | hq
    · exact h3 q hq
    · rcases List.mem_singleton.mp hq with rfl
      exact ⟨hname, hpu, him⟩

/-- Growing `seen` alone preserves the invariant. -/
theorem ExtInv_grow {base : String} {st : ExtSt} {s2 : List String}
    (hInv : ExtInv base st) (hsub : ∀ x ∈ st.seen, x ∈ s2) :
    ExtInv base { products := st.products, seen := s2 } := by
  obtain ⟨h1, h2, h3⟩ := hInv
  exact ⟨fun p hp => hsub _ (h1 p hp), h2, h3⟩

/-- A strategy-1 step preserves the invariant. -/
theorem ExtInv_stepWoo (base brand mc sc : String) (st : ExtSt)
    (c : WooContainer) (hInv : ExtInv base st) :
    ExtInv base (stepWoo base brand mc sc st c) := by
  unfold stepWoo
  split
  · exact hInv
  · rename_i ttl fimg furl hcand
    obtain ⟨hne, hfi, hfu, hnotin⟩ := wooCandidate_spec hcand
    exact ExtInv_append hInv
      (fun x hx => List.mem_cons_of_mem _ (List.mem_cons_of_mem _ hx))
      (List.mem_cons_self _ _) hnotin hne hfu (Or.inr hfi)

/-- A strategy-2 step preserves the invariant. -/
theorem ExtInv_stepGen (base brand mc sc : String) (st : ExtSt)
    (c : GenContainer) (hInv : ExtInv base st) :
    ExtInv base (stepGen base brand mc sc st c) := by
  unfold stepGen
  split
  · exact hInv
  · rename_i ttl fimg furl hcand
    obtain ⟨hne, hfi, hfu, hnotin⟩ := genCandidate_spec hcand
    exact ExtInv_append hInv
      (fun x hx => List.mem_cons_of_mem _ (List.mem_cons_of_mem _ hx))
      (List.mem_cons_self _ _) hnotin hne hfu (Or.inr hfi)

/-- The `ItemList` loop preserves the invariant. -/
theorem ExtInv_procLis (base brand mc sc : String) :
    ∀ (xs : List JVal) (st : ExtSt), ExtInv base st →
      ExtInv base (procLis base brand mc sc xs st).1 := by
  intro xs
  induction xs with
  | nil => intro st h; exact h
  | cons li rest ih =>
    intro st h
    unfold procLis
    split
    · exact h
    · exact ih st h
    · rename_i nm fimg furl hcand
      obtain ⟨hne, hfi, hfu, hnotin⟩ := liCand_spec hcand
      exact ih _ (ExtInv_append h
        (fun x hx => List.mem_cons_of_mem _ hx)
        (List.mem_cons_self _ _) hnotin hne hfu hfi)

/-- One strategy-3 item preserves the invariant. -/
theorem ExtInv_procItem (base brand mc sc : String) (it : JVal) (st : ExtSt)
    (h : ExtInv base st) :
    ExtInv base (procItem base brand mc sc it st).1 := by
  unfold procItem
  split
  · rename_i fs
    split
    · exact h
    · split
      · split
        · exact h
        · exact h
        · rename_i nm fimg furl hcand
          obtain ⟨hne, hfi, hfu, hnotin⟩ := prodCand_spec hcand
          exact ExtInv_append h
            (fun x hx => List.mem_cons_of_mem _ (List.mem_cons_of_mem _ hx))
            (List.mem_cons_of_mem _ (List.mem_cons_self _ _))
            hnotin hne hfu (Or.inr hfi)
      · split
        · split
          · exact h
          · exact ExtInv_procLis base brand mc sc _ st h
        · exact h
  · exact h

/-- A whole strategy-3 script-item sequence preserves the invariant. -/
theorem ExtInv_procItems (base brand mc sc : String) :
    ∀ (xs : List JVal) (st : ExtSt), ExtInv base st →
      ExtInv base (procItems base brand mc sc xs st) := by
  intro xs
  induction xs with
  | nil => intro st h; exact h
  | cons it rest ih =>
    intro st h
    unfold procItems
    split
    · rename_i st2 heq
      have h2 := ExtInv_procItem base brand mc sc it st h
      rw [heq] at h2
      exact h2
    · rename_i st2 heq
      have h2 := ExtInv_procItem base brand mc sc it st h
      rw [heq] at h2
      exact ih st2 h2

/-- One script block preserves the invariant. -/
theorem ExtInv_procScript (base brand mc sc : String) (blk : Option JVal)
    (st : ExtSt) (h : ExtInv base st) :
    ExtInv base (procScript base brand mc sc blk st) := by
  unfold procScript
  split
  · exact h
  · split
    · exact h
    · exact ExtInv_procItems base brand mc sc _ st h

/-- Invariant preservation lifts through a left fold. -/
theorem foldl_preserves {α β : Type} (P : α → Prop) (f : α → β → α)
    (hstep : ∀ a b, P a → P (f a b)) :
    ∀ (l : List β) (a : α), P a → P (l.foldl f a) := by
  intro l
  induction l with
  | nil => intro a h; exact h
  | cons b rest ih => intro a h; exact ih (f a b) (hstep a b h)

/-- The extraction invariant holds for the whole extractor run. -/
theorem ExtInv_extract (page : PageModel) (base brand mc sc : String) :
    ExtInv base (extract_products_from_page page base brand mc sc) := by
  unfold extract_products_from_page
  have h0 : ExtInv base { products := [], seen := [] } := by
    refine ⟨?_, List.Pairwise.nil, ?_⟩
    · intro p hp; cases hp
    · intro p hp; cases hp
  have h1 := foldl_preserves (ExtInv base) (stepWoo base brand mc sc)
    (fun a b ha => ExtInv_stepWoo base brand mc sc a b ha)
    page.wooContainers _ h0
  refine foldl_preserves (ExtInv base) _
    (fun a b ha => ExtInv_procScript base brand mc sc b a ha)
    page.ldScripts _ ?_
  split
  · exact foldl_preserves (ExtInv base) (stepGen base brand mc sc)
      (fun a b ha => ExtInv_stepGen base brand mc sc a b ha)
      page.genContainers _ h1
  · exact h1

/-! ### Claim C10: no duplicate product URLs within one extractor call -/

/-- Claim C10: one call of the product extractor never returns two records
with the same resolved product URL — every append is guarded by a check of
the resolved URL against the shared `seen` set, which each append then
extends. -/
theorem c10_no_duplicate_urls (page : PageModel) (base brand mc sc : String) :
    (extract_products_from_page page base brand mc sc).products.Pairwise
      (fun a b => a.productUrl ≠ b.productUrl) :=
  (ExtInv_extract page base brand mc sc).2.1

/-! ### Claim C5: the record invariant of the extractor -/

/-- Concrete page for claim C5's counterexample: a single JSON-LD
`ItemList` whose one entry has a name and a URL but no image. -/
def c5Page : PageModel :=
  { wooContainers := []
    genContainers := []
    ldScripts := [some (.obj
      [("@type", .str "ItemList"),
       ("itemListElement", .arr
         [.obj [("item", .obj
           [("name", .str "Chair X"),
            ("url", .str "/p/chair-x")])]])])] }

/-- Claim C5 fails as stated: the extractor emits, for an `ItemList` entry
without an image, a record whose `imageUrl` is the empty string — not an
absolute URL resolved against the base. -/
theorem c5_counterexample :
    ((extract_products_from_page c5Page "https://h.com" "BrandX"
        "Homepage" "Homepage").products.map (fun p => p.imageUrl)) = [""] ∧
    hasScheme "" = false ∧
    ((extract_products_from_page c5Page "https://h.com" "BrandX"
        "Homepage" "Homepage").products.map (fun p => p.productUrl)) =
      ["https://h.com/p/chair-x"] := by
  decide

/-- Claim C5 (amended): every record the extractor produces has a non-empty
name and a product URL resolved against the base (hence absolute when the
base is), and its image URL is likewise resolved — except that a
structured-data `ItemList` entry carrying no image yields the empty string
as `imageUrl`. -/
theorem c5_record_invariant_amended (page : PageModel)
    (base brand mc sc : String) (hb : hasScheme base = true) :
    ∀ r ∈ (extract_products_from_page page base brand mc sc).products,
      r.model ≠ "" ∧ hasScheme r.productUrl = true ∧
        (hasScheme r.imageUrl = true ∨ r.imageUrl = "") := by
  intro r hr
  obtain ⟨hname, ⟨b, hpu⟩, him⟩ :=
    (ExtInv_extract page base brand mc sc).2.2 r hr
  refine ⟨hname, hpu ▸ hasScheme_urljoin base b hb, ?_⟩
  rcases him with h | ⟨a, hia⟩
  · exact Or.inr h
  · exact Or.inl (hia ▸ hasScheme_urljoin base a hb)

/-- Concrete page for claim C5's witness: one WooCommerce product card. -/
def c5WitnessPage : PageModel :=
  { wooContainers := [{
      titleSels := [some "Aria Lounge Chair", none, none, none, none, none]
      linkText := none
      src := some "/img/aria-lounge.jpg"
      dataSrc := none
      dataLazySrc := none
      srcset := none
      href := some "/p/aria-lounge" }]
    genContainers := []
    ldScripts := [] }

/-- The single record `c5WitnessPage` yields (spelled out for the witness
below). -/
def c5WitnessRecord : Product :=
  (extract_products_from_page c5WitnessPage "https://h.com" "BrandX"
    "Homepage" "Homepage").products.headD
    (create_product "none" "none" "none" "none")

/-- Witness for claim C5's amended theorem: the invariant, instantiated at
a concrete page, the base `https://h.com`, and the record extracted there.
-/
theorem c5_witness :
    hasScheme "https://h.com" = true ∧
    c5WitnessRecord.model = "Aria Lounge Chair" ∧
    c5WitnessRecord.model ≠ "" ∧
    hasScheme c5WitnessRecord.productUrl = true ∧
    (hasScheme c5WitnessRecord.imageUrl = true ∨
      c5WitnessRecord.imageUrl = "") := by
  have h := c5_record_invariant_amended c5WitnessPage "https://h.com"
    "BrandX" "Homepage" "Homepage" (by decide) c5WitnessRecord (by decide)
  exact ⟨by decide, by decide, h.1, h.2.1, h.2.2⟩
